/-
  Verification of the fetch HTTP health-check program (fetch.go and the
  sequential variant shown in README.md).

  Shallow embedding conventions:
  * Go strings are Lean String; the optional headers map (nil vs non-nil in Go)
    is Option (List (String × String)).
  * The float64 counters Attempt and Success only ever hold natural numbers
    (they start at 0 and are incremented by 1), and 100 * (s / a) on such
    values is modelled exactly over the rationals; math.Round is
    half-away-from-zero rounding, modelled by mathRound below.
  * The HTTP stack (http.NewRequest, client.Do) is an environment parameter:
    newRequestFails says whether http.NewRequest errors for a given method and
    URL, and net gives the network outcome (error, or a response with an
    arrival time in milliseconds and a status code) for the request the code
    built.  The client timeout delivers a response only when it arrives
    within responseTimeout milliseconds; a later response surfaces as an
    error from client.Do, exactly as a transport error does.
  * The Go map status.Sites (hostname to counters) is an association list;
    each locked goroutine update is one atomic application of updateSite, and
    a concurrent cycle is modelled as folding the per-descriptor updates in an
    arbitrary interleaving order, i.e. any permutation of the descriptor list.
-/
import Mathlib

namespace FetchSre

/-- HealthCheck mirrors the yaml-parsed descriptor struct of fetch.go: body,
headers (nil map is none), method, name, url and the derived hostname field. -/
structure HealthCheck where
  Body : String
  Headers : Option (List (String × String))
  Method : String
  Name : String
  URL : String
  hostname : String
deriving DecidableEq

/-- Result mirrors the per-hostname counter struct of fetch.go; the Go fields
are float64 but only ever hold natural numbers, modelled exactly as rationals. -/
structure Result where
  Attempt : Rat
  Success : Rat
deriving DecidableEq

/-- mathRound models math.Round of Go: rounding half away from zero. -/
def mathRound (x : Rat) : Int :=
  if 0 ≤ x then ⌊x + 1 / 2⌋ else -⌊-x + 1 / 2⌋

/-- Uptime mirrors Result.Uptime of fetch.go: 0 when Attempt is 0, otherwise
the integer math.Round of 100 * (Success / Attempt). -/
def Result.Uptime (r : Result) : Int :=
  if r.Attempt = 0 then 0 else mathRound (100 * (r.Success / r.Attempt))

/-- responseTimeout is the HTTP request timeout of fetch.go, in milliseconds. -/
def responseTimeout : Nat := 500

/-- outputTimeout is the polling delay of fetch.go, in seconds. -/
def outputTimeout : Nat := 15

/-- Request models the http.Request value the code builds: method, URL, body
payload, and the header list accumulated by req.Header.Add calls. -/
structure Request where
  method : String
  url : String
  body : String
  header : List (String × String)
deriving DecidableEq

/-- NetResult is the outcome of the network for one issued request: a
transport-level error (DNS failure, connection refusal, ...) or a response
with its arrival time in milliseconds and its HTTP status code. -/
inductive NetResult where
  | err
  | resp (arrivalMs : Nat) (statusCode : Nat)
deriving DecidableEq

/-- HttpEnv is the HTTP stack environment: whether http.NewRequest errors for
a given method and URL, and what the network returns for a built request. -/
structure HttpEnv where
  newRequestFails : String → String → Bool
  net : Request → NetResult

/-- clientDo models client.Do with a timeout: an error, or a response arriving
after the timeout, yields none; a response within the timeout is delivered. -/
def clientDo (timeoutMs : Nat) (r : NetResult) : Option Nat :=
  match r with
  | .err => none
  | .resp arrival status => if arrival ≤ timeoutMs then some status else none

/-- effectiveMethod mirrors the method default of check in fetch.go: the
configured method when set, otherwise GET. -/
def effectiveMethod (site : HealthCheck) : String :=
  if site.Method ≠ "" then site.Method else "GET"

/-- addHeaders models the loop adding each configured header to the request
via req.Header.Add. -/
def addHeaders (req : Request) (hs : List (String × String)) : Request :=
  hs.foldl (fun r kv => { r with header := r.header ++ [kv] }) req

/-- builtRequest is the request value check in fetch.go hands to client.Do:
effective method, the descriptor URL, the body string as payload, and exactly
the configured headers (none when the headers map is nil). -/
def builtRequest (site : HealthCheck) : Request :=
  let base : Request :=
    { method := effectiveMethod site, url := site.URL,
      body := site.Body, header := [] }
  match site.Headers with
  | none => base
  | some hs => addHeaders base hs

/-- check mirrors check of fetch.go (the concurrent variant): build the
request, return false on a NewRequest error, add the headers, issue the
request through the 500 ms client, return false on any client.Do error, and
classify by whether the status code lies in 200..299. -/
def check (env : HttpEnv) (site : HealthCheck) : Bool :=
  if env.newRequestFails (effectiveMethod site) site.URL then false
  else
    match clientDo responseTimeout (env.net (builtRequest site)) with
    | none => false
    | some status => if 200 ≤ status ∧ status ≤ 299 then true else false

/-- SeqOutcome is the observable behaviour of the sequential-variant check:
either a normal boolean return, or a runtime crash (nil pointer dereference). -/
inductive SeqOutcome where
  | crash
  | returns (b : Bool)
deriving DecidableEq

/-- checkSeq mirrors check of the sequential variant in README.md.  There the
header-adding loop runs before the NewRequest error test, so when NewRequest
fails (req is nil) and the headers map is non-nil and non-empty, the loop body
dereferences the nil request and the program crashes; with a nil or empty
headers map the loop body never runs and the error test returns false. -/
def checkSeq (env : HttpEnv) (site : HealthCheck) : SeqOutcome :=
  let reqOpt : Option Request :=
    if env.newRequestFails (effectiveMethod site) site.URL then none
    else some { method := effectiveMethod site, url := site.URL,
                body := site.Body, header := [] }
  match site.Headers, reqOpt with
  | some (_ :: _), none => .crash
  | _, none => .returns false
  | hs?, some req =>
    let req := match hs? with
      | none => req
      | some hs => addHeaders req hs
    match clientDo responseTimeout (env.net req) with
    | none => .returns false
    | some status => .returns (if 200 ≤ status ∧ status ≤ 299 then true else false)

/-- envNewRequestFails is a concrete HTTP environment in which http.NewRequest
fails for every method and URL (as Go does for a method containing a space)
and the network always reports a transport error. -/
def envNewRequestFails : HttpEnv :=
  { newRequestFails := fun _ _ => true, net := fun _ => .err }

/-- siteEmptyHeaders is a descriptor whose headers map is non-nil but empty
(an explicit empty mapping in the yaml) and whose method makes
http.NewRequest fail. -/
def siteEmptyHeaders : HealthCheck :=
  { Body := "", Headers := some [], Method := "BAD METHOD", Name := "n",
    URL := "http://x.example.com/", hostname := "x.example.com" }

/-- siteCrash is a descriptor with a non-empty headers map and a method that
makes http.NewRequest fail. -/
def siteCrash : HealthCheck :=
  { Body := "", Headers := some [("k", "v")], Method := "BAD METHOD", Name := "n",
    URL := "http://x.example.com/", hostname := "x.example.com" }

/-- siteA is a concrete descriptor on hostname a.example.com. -/
def siteA : HealthCheck :=
  { Body := "", Headers := none, Method := "", Name := "a1",
    URL := "http://a.example.com/x", hostname := "a.example.com" }

/-- siteB is a second concrete descriptor sharing the hostname of siteA. -/
def siteB : HealthCheck :=
  { Body := "", Headers := none, Method := "", Name := "a2",
    URL := "http://a.example.com/y", hostname := "a.example.com" }

/-- siteC is a concrete descriptor on a hostname distinct from siteA. -/
def siteC : HealthCheck :=
  { Body := "", Headers := none, Method := "", Name := "c1",
    URL := "http://c.example.com/", hostname := "c.example.com" }

/-- Store models the Go map status.Sites as an association list from hostname
to counters; the claims proved here only depend on lookups and on the key
multiset, never on the internal order. -/
abbrev Store := List (String × Result)

/-- rZero is the zero value new(Result) allocates. -/
def rZero : Result := { Attempt := 0, Success := 0 }

/-- bump is one locked goroutine update in main of fetch.go: Attempt is
incremented and Success is additionally incremented when the probe succeeded. -/
def bump (r : Result) (b : Bool) : Result :=
  { Attempt := r.Attempt + 1, Success := r.Success + if b then 1 else 0 }

/-- updateSite applies one probe outcome to the bucket of its hostname,
leaving every other bucket untouched. -/
def updateSite (st : Store) (hb : String × Bool) : Store :=
  st.map (fun kv => (kv.1, if kv.1 = hb.1 then bump kv.2 hb.2 else kv.2))

/-- getSite is map lookup by hostname. -/
def getSite (st : Store) (h : String) : Option Result :=
  match st with
  | [] => none
  | kv :: rest => if kv.1 = h then some kv.2 else getSite rest h

/-- insertZero models the startup assignment Sites[hostname] = new(Result):
the bucket of the key is (re)set to the zero counters, appended when new. -/
def insertZero (st : Store) (h : String) : Store :=
  if st.any (fun kv => kv.1 == h) then
    st.map (fun kv => (kv.1, if kv.1 = h then rZero else kv.2))
  else st ++ [(h, rZero)]

/-- initStore is the startup loop of main creating one zeroed bucket per
distinct hostname of the descriptor list. -/
def initStore (cfg : List HealthCheck) : Store :=
  cfg.foldl (fun st hc => insertZero st hc.hostname) []

/-- cycleOutcomes pairs every descriptor with the boolean its probe returned
in one cycle, in descriptor order. -/
def cycleOutcomes (cfg : List HealthCheck) (outcome : HealthCheck → Bool) :
    List (String × Bool) :=
  cfg.map (fun hc => (hc.hostname, outcome hc))

/-- runCycle folds the locked updates of one cycle over the store, in the
order in which the concurrent goroutines happened to acquire the lock; the
report of the cycle reads the store only after this fold is complete, which
is the WaitGroup barrier of main. -/
def runCycle (st : Store) (updates : List (String × Bool)) : Store :=
  updates.foldl updateSite st

/-- runCycles folds any number of cycles. -/
def runCycles (st : Store) (cycles : List (List (String × Bool))) : Store :=
  cycles.foldl runCycle st

/-- resultLE is componentwise order on counters. -/
def resultLE (r r2 : Result) : Prop :=
  r.Attempt ≤ r2.Attempt ∧ r.Success ≤ r2.Success

/-- storeLE relates two stores with the same buckets in the same positions
and componentwise non-decreasing counters. -/
def storeLE (st st2 : Store) : Prop :=
  List.Forall₂ (fun kv kv2 => kv.1 = kv2.1 ∧ resultLE kv.2 kv2.2) st st2

/-- URLInfo is the part of a parsed url.URL value the program uses. -/
structure URLInfo where
  hostname : String
deriving DecidableEq

/-- ParseEnv models url.Parse of the Go standard library: none when parsing
returns an error, otherwise the parsed value with its Hostname(). -/
abbrev ParseEnv := String → Option URLInfo

/-- ConfigError enumerates the fatal startup checks of main in fetch.go. -/
inductive ConfigError where
  | missingName
  | missingURL
  | badURL
deriving DecidableEq

/-- setupAux is the startup loop of main: for each entry in order, exit on an
empty name, then on an empty url, then on a url.Parse error; otherwise record
the derived hostname on the descriptor and create its zeroed bucket. -/
def setupAux (parse : ParseEnv) : List HealthCheck → List HealthCheck → Store →
    Except ConfigError (List HealthCheck × Store)
  | [], acc, st => .ok (acc, st)
  | hc :: rest, acc, st =>
    if hc.Name = "" then .error .missingName
    else if hc.URL = "" then .error .missingURL
    else
      match parse hc.URL with
      | none => .error .badURL
      | some addr =>
        setupAux parse rest (acc ++ [{ hc with hostname := addr.hostname }])
          (insertZero st addr.hostname)

/-- setup runs the startup loop on the whole parsed config. -/
def setup (parse : ParseEnv) (cfg : List HealthCheck) :
    Except ConfigError (List HealthCheck × Store) :=
  setupAux parse cfg [] []

/-- setupFails says whether startup hits a fatal configuration error. -/
def setupFails (parse : ParseEnv) (cfg : List HealthCheck) : Bool :=
  match setup parse cfg with
  | .error _ => true
  | .ok _ => false

/-- MainBehavior: after startup the process either exits with a code (a fatal
configuration error, hit before any cycle and before any network call; the
startup phase performs no network operation) or enters the perpetual cycle
loop with the prepared descriptor list and zeroed store. -/
inductive MainBehavior where
  | exits (code : Int)
  | loops (cfg : List HealthCheck) (st : Store)

/-- mainStart models main of fetch.go up to entering the cycle loop: any
startup check failure calls os.Exit(-1). -/
def mainStart (parse : ParseEnv) (cfg : List HealthCheck) : MainBehavior :=
  match setup parse cfg with
  | .error _ => .exits (-1)
  | .ok (cfg2, st) => .loops cfg2 st

/-- SeqCounters mirrors one entry of HealthCheckStatus in the sequential
variant of README.md: integer count and success. -/
structure SeqCounters where
  count : Nat
  success : Nat
deriving DecidableEq

/-- SeqStore models the HealthCheckStatus map of the sequential variant. -/
abbrev SeqStore := List (String × SeqCounters)

/-- seqBump is one counter update of the sequential variant. -/
def seqBump (c : SeqCounters) (b : Bool) : SeqCounters :=
  { count := c.count + 1, success := c.success + if b then 1 else 0 }

/-- seqUpdate applies one probe outcome in the sequential variant. -/
def seqUpdate (st : SeqStore) (hb : String × Bool) : SeqStore :=
  st.map (fun kv => (kv.1, if kv.1 = hb.1 then seqBump kv.2 hb.2 else kv.2))

/-- seqInsertZero models the startup assignment of a zeroed count/success
entry in the sequential variant. -/
def seqInsertZero (st : SeqStore) (h : String) : SeqStore :=
  if st.any (fun kv => kv.1 == h) then
    st.map (fun kv => (kv.1, if kv.1 = h then { count := 0, success := 0 } else kv.2))
  else st ++ [(h, { count := 0, success := 0 })]

/-- seqInitStore is the startup loop of the sequential variant. -/
def seqInitStore (cfg : List HealthCheck) : SeqStore :=
  cfg.foldl (fun st hc => seqInsertZero st hc.hostname) []

/-- seqRunCycle is one sequential cycle: probe each descriptor in list order
and update its bucket immediately, with no concurrency. -/
def seqRunCycle (st : SeqStore) (updates : List (String × Bool)) : SeqStore :=
  updates.foldl seqUpdate st

/-- seqUptime mirrors the report computation of the sequential variant:
math.Round of 100 * (success / count); that variant has no zero-count guard,
and reports happen only after a cycle, when every bucket has positive count. -/
def seqUptime (c : SeqCounters) : Int :=
  mathRound (100 * ((c.success : Rat) / (c.count : Rat)))

/-- toResult converts the integer counters of the sequential variant to the
float counters of the concurrent variant (exact, the floats hold naturals). -/
def toResult (c : SeqCounters) : Result :=
  { Attempt := (c.count : Rat), Success := (c.success : Rat) }

/-- toStore converts a sequential store pointwise. -/
def toStore (st : SeqStore) : Store :=
  st.map (fun kv => (kv.1, toResult kv.2))

/-- setupAuxFails says whether the startup loop hits a fatal error on the
remaining entries. -/
def setupAuxFails (parse : ParseEnv) (cfg acc : List HealthCheck) (st : Store) : Bool :=
  match setupAux parse cfg acc st with
  | .error _ => true
  | .ok _ => false

/-- parseRelative models url.Parse of Go at the relative reference /path:
parsing succeeds with an empty Host, so Hostname() is the empty string (Go
url.Parse only errors on malformed input such as control characters in the
string, not on the absence of a host). -/
def parseRelative : ParseEnv :=
  fun s => if s = "/path" then some { hostname := "" } else none

/-- siteRelative is a descriptor whose url is the relative reference /path:
non-empty name and url, but no extractable hostname. -/
def siteRelative : HealthCheck :=
  { Body := "", Headers := none, Method := "", Name := "home",
    URL := "/path", hostname := "" }

/-- parseNone is a parse environment in which url.Parse always errors. -/
def parseNone : ParseEnv := fun _ => none

/-- siteNoName is a config entry with an empty name. -/
def siteNoName : HealthCheck :=
  { Body := "", Headers := none, Method := "", Name := "",
    URL := "http://x.example.com/", hostname := "" }

/-- envNetErr is an HTTP environment where request construction succeeds and
the network always reports a transport error. -/
def envNetErr : HttpEnv :=
  { newRequestFails := fun _ _ => false, net := fun _ => .err }

/-- addHeaders_spec: adding a header list appends it to the header field and
changes nothing else. -/
theorem addHeaders_spec (r : Request) (hs : List (String × String)) :
    addHeaders r hs = { r with header := r.header ++ hs } := by
  induction hs generalizing r with
  | nil => simp [addHeaders]
  | cons kv t ih =>
    show addHeaders ({ r with header := r.header ++ [kv] }) t = _
    rw [ih]
    simp

/-- C1: check returns true exactly when http.NewRequest succeeds and the
network delivers a response within the 500 ms timeout whose status code lies
in the inclusive range 200..299; a NewRequest error, a transport error, a
response arriving after the timeout, or a status outside 200..299 all yield
false, and the outcome is always a plain boolean (the return type of check),
never a propagated error. -/
theorem claim_C1_check_classification (env : HttpEnv) (site : HealthCheck) :
    check env site = true ↔
      (env.newRequestFails (effectiveMethod site) site.URL = false ∧
       ∃ arrival status, env.net (builtRequest site) = .resp arrival status ∧
         arrival ≤ responseTimeout ∧ 200 ≤ status ∧ status ≤ 299) := by
  cases hfail : env.newRequestFails (effectiveMethod site) site.URL with
  | true => simp [check, hfail]
  | false =>
    cases hnet : env.net (builtRequest site) with
    | err => simp [check, clientDo, hfail, hnet]
    | resp arrival status =>
      by_cases harr : arrival ≤ responseTimeout
      · simp [check, clientDo, hfail, hnet, harr]
        constructor
        · intro h
          exact ⟨arrival, status, ⟨rfl, rfl⟩, harr, h.1, h.2⟩
        · rintro ⟨a, s, ⟨rfl, rfl⟩, -, h1, h2⟩
          exact ⟨h1, h2⟩
      · simp [check, clientDo, hfail, hnet, harr]

/-- C8: the request check builds and sends carries the effective method (the
configured method when set, else GET), the descriptor URL, exactly the
configured headers with nothing extra added (an absent headers map yields the
empty header list), and the configured body verbatim (an absent body is the
empty string, i.e. no payload). -/
theorem claim_C8_request_construction (site : HealthCheck) :
    (builtRequest site).method = (if site.Method ≠ "" then site.Method else "GET") ∧
    (builtRequest site).url = site.URL ∧
    (builtRequest site).body = site.Body ∧
    (builtRequest site).header = site.Headers.getD [] := by
  cases h : site.Headers with
  | none => simp [builtRequest, h, effectiveMethod]
  | some hs => simp [builtRequest, h, addHeaders_spec, effectiveMethod]

/-- C10 counterexample: a descriptor with a non-nil but empty headers map and
failing request construction makes the sequential checkSeq return false, not
crash, because the header-adding loop body never executes; this refutes the
claim that every non-nil headers map leads to a nil dereference there. -/
theorem claim_C10_counterexample :
    siteEmptyHeaders.Headers ≠ none ∧
    envNewRequestFails.newRequestFails (effectiveMethod siteEmptyHeaders)
      siteEmptyHeaders.URL = true ∧
    checkSeq envNewRequestFails siteEmptyHeaders ≠ .crash ∧
    checkSeq envNewRequestFails siteEmptyHeaders = .returns false := by
  refine ⟨by simp [siteEmptyHeaders], rfl, by decide, rfl⟩

/-- C10 amended: in the sequential-variant checkSeq the headers are added to
the request before the NewRequest error is tested, so a descriptor with a
non-nil and NON-EMPTY headers map whose request construction fails
dereferences the nil request and crashes; the concurrent check tests the
error first and returns false (with an empty or nil headers map both return
false). -/
theorem claim_C10_nil_deref (env : HttpEnv) (site : HealthCheck)
    (kv : String × String) (hs : List (String × String))
    (hh : site.Headers = some (kv :: hs))
    (hf : env.newRequestFails (effectiveMethod site) site.URL = true) :
    checkSeq env site = .crash ∧ check env site = false := by
  constructor
  · unfold checkSeq
    rw [hh, hf]
    rfl
  · unfold check
    rw [hf]
    rfl

/-- C10 witness: the amended statement at a concrete descriptor and
environment. -/
theorem claim_C10_nil_deref_witness :
    checkSeq envNewRequestFails siteCrash = .crash ∧
    check envNewRequestFails siteCrash = false :=
  claim_C10_nil_deref envNewRequestFails siteCrash ("k", "v") [] rfl rfl

/-- mathRound_eq_round: on nonnegative rationals, Go half-away-from-zero
rounding agrees with the Mathlib nearest-integer round function. -/
theorem mathRound_eq_round (q : Rat) (hq : 0 ≤ q) : mathRound q = round q := by
  rw [mathRound, if_pos hq, round_eq]

/-- mathRound_bounds: rounding a rational between 0 and 100 stays in 0..100. -/
theorem mathRound_bounds {q : Rat} (h0 : 0 ≤ q) (h1 : q ≤ 100) :
    0 ≤ mathRound q ∧ mathRound q ≤ 100 := by
  rw [mathRound, if_pos h0]
  refine ⟨Int.floor_nonneg.mpr (by linarith), ?_⟩
  have h : ⌊q + 1 / 2⌋ < 101 := Int.floor_lt.mpr (by push_cast; linarith)
  omega

/-- C2: for counters holding naturals with successes at most attempts, Uptime
is the nearest-integer rounding of 100 * successes / attempts when attempts is
positive, is 0 when attempts is 0, is 100 when successes equals attempts with
attempts positive, and always lies between 0 and 100. -/
theorem claim_C2_uptime_formula (s a : Nat) (hsa : s ≤ a) :
    Result.Uptime { Attempt := 0, Success := (s : Rat) } = 0 ∧
    (0 < a → Result.Uptime { Attempt := (a : Rat), Success := (s : Rat) }
        = round (100 * (s : Rat) / (a : Rat))) ∧
    (0 < a → s = a → Result.Uptime { Attempt := (a : Rat), Success := (s : Rat) } = 100) ∧
    (0 ≤ Result.Uptime { Attempt := (a : Rat), Success := (s : Rat) } ∧
     Result.Uptime { Attempt := (a : Rat), Success := (s : Rat) } ≤ 100) := by
  refine ⟨by rw [Result.Uptime]; simp, ?_, ?_, ?_⟩
  · intro ha
    have ha' : (a : Rat) ≠ 0 := Nat.cast_ne_zero.mpr ha.ne'
    rw [Result.Uptime, if_neg ha', mathRound_eq_round _ (by positivity), mul_div_assoc]
  · intro ha hs
    subst hs
    have ha' : (s : Rat) ≠ 0 := Nat.cast_ne_zero.mpr ha.ne'
    rw [Result.Uptime, if_neg ha', div_self ha', mul_one,
      mathRound_eq_round _ (by norm_num)]
    norm_num
  · rcases Nat.eq_zero_or_pos a with h0 | ha
    · subst h0
      rw [Result.Uptime]
      simp
    · have ha' : (a : Rat) ≠ 0 := Nat.cast_ne_zero.mpr ha.ne'
      have hdiv : (s : Rat) / (a : Rat) ≤ 1 := by
        rw [div_le_one (by positivity)]
        exact_mod_cast hsa
      rw [Result.Uptime, if_neg ha']
      exact mathRound_bounds (by positivity) (by linarith)

/-- bump_comm: two counter updates on the same bucket commute. -/
theorem bump_comm (r : Result) (x y : Bool) : bump (bump r x) y = bump (bump r y) x := by
  simp [bump, add_right_comm]

/-- updOne_comm: the pointwise form of one bucket update commutes with
another, whether they hit the same hostname or different ones. -/
theorem updOne_comm (a b : String × Bool) (kv : String × Result) :
    ((kv.1 : String),
      if kv.1 = b.1 then bump (if kv.1 = a.1 then bump kv.2 a.2 else kv.2) b.2
      else if kv.1 = a.1 then bump kv.2 a.2 else kv.2) =
    (kv.1,
      if kv.1 = a.1 then bump (if kv.1 = b.1 then bump kv.2 b.2 else kv.2) a.2
      else if kv.1 = b.1 then bump kv.2 b.2 else kv.2) := by
  by_cases h1 : kv.1 = a.1
  · by_cases h2 : kv.1 = b.1
    · simp only [if_pos h1, if_pos h2, bump_comm]
    · simp only [if_pos h1, if_neg h2]
  · by_cases h2 : kv.1 = b.1
    · simp only [if_neg h1, if_pos h2]
    · simp only [if_neg h1, if_neg h2]

/-- updateSite_comm: the locked updates of two goroutines commute, whether
they hit the same bucket or different ones. -/
theorem updateSite_comm (st : Store) (a b : String × Bool) :
    updateSite (updateSite st a) b = updateSite (updateSite st b) a := by
  simp only [updateSite, List.map_map]
  apply List.map_congr_left
  intro kv _
  exact updOne_comm a b kv

/-- runCycle_perm: one cycle produces the same store whatever order the
goroutines acquired the lock in; no update is lost. -/
theorem runCycle_perm (st : Store) {l1 l2 : List (String × Bool)} (p : l1.Perm l2) :
    runCycle st l1 = runCycle st l2 :=
  p.foldl_eq' (fun x _ y _ z => updateSite_comm z x y) st

/-- updateSite_keys: an update never adds or removes a bucket. -/
theorem updateSite_keys (st : Store) (hb : String × Bool) :
    (updateSite st hb).map Prod.fst = st.map Prod.fst := by
  simp only [updateSite, List.map_map]
  exact List.map_congr_left (fun kv _ => rfl)

/-- runCycle_keys: a whole cycle never adds or removes a bucket. -/
theorem runCycle_keys (st : Store) (l : List (String × Bool)) :
    (runCycle st l).map Prod.fst = st.map Prod.fst := by
  induction l generalizing st with
  | nil => rfl
  | cons u t ih =>
    show (runCycle (updateSite st u) t).map Prod.fst = _
    rw [ih, updateSite_keys]

/-- getSite_updateSite: lookup after one update bumps exactly the bucket of
the updated hostname. -/
theorem getSite_updateSite (st : Store) (hb : String × Bool) (k : String) :
    getSite (updateSite st hb) k =
      if k = hb.1 then (getSite st k).map (fun r => bump r hb.2) else getSite st k := by
  induction st with
  | nil => simp only [updateSite, List.map_nil, getSite]; split <;> rfl
  | cons kv rest ih =>
    simp only [updateSite, List.map_cons, getSite] at ih ⊢
    by_cases hk : kv.1 = k
    · subst hk
      by_cases hh : kv.1 = hb.1 <;> simp [hh]
    · simp only [if_neg hk]
      exact ih

/-- updateSite_absent: an update whose hostname owns no bucket is a no-op. -/
theorem updateSite_absent (st : Store) (hb : String × Bool)
    (h : ∀ kv ∈ st, kv.1 ≠ hb.1) : updateSite st hb = st := by
  induction st with
  | nil => rfl
  | cons kv rest ih =>
    simp only [updateSite, List.map_cons]
    rw [if_neg (h kv (by simp))]
    have htail := ih (fun kv2 hkv2 => h kv2 (by simp [hkv2]))
    simp only [updateSite] at htail
    rw [htail]

/-- runCycle_cons: the head bucket evolves independently of the tail. -/
theorem runCycle_cons (x : String × Result) (xs : Store) (l : List (String × Bool)) :
    runCycle (x :: xs) l =
      (l.foldl (fun y u => ((y.1 : String), if y.1 = u.1 then bump y.2 u.2 else y.2)) x)
        :: runCycle xs l := by
  induction l generalizing x xs with
  | nil => rfl
  | cons u t ih =>
    show runCycle (updateSite (x :: xs) u) t = _
    simp only [updateSite, List.map_cons, List.foldl_cons]
    exact ih _ _

/-- foldl_keep: a bucket hit by no update of the cycle keeps its value. -/
theorem foldl_keep (x : String × Result) (l : List (String × Bool))
    (h : ∀ u ∈ l, x.1 ≠ u.1) :
    l.foldl (fun y u => ((y.1 : String), if y.1 = u.1 then bump y.2 u.2 else y.2)) x = x := by
  induction l with
  | nil => rfl
  | cons u t ih =>
    simp only [List.foldl_cons]
    rw [if_neg (h u (by simp))]
    exact ih (fun u2 hu2 => h u2 (by simp [hu2]))

/-- insertZero_values: startup insertions only ever store zeroed counters. -/
theorem insertZero_values (st : Store) (h : String)
    (hst : ∀ kv ∈ st, kv.2 = rZero) : ∀ kv ∈ insertZero st h, kv.2 = rZero := by
  intro kv hkv
  rw [insertZero] at hkv
  split at hkv
  · obtain ⟨kv0, hkv0, rfl⟩ := List.mem_map.mp hkv
    dsimp only
    split
    · rfl
    · exact hst kv0 hkv0
  · rcases List.mem_append.mp hkv with h1 | h2
    · exact hst kv h1
    · simp only [List.mem_singleton] at h2
      rw [h2]

/-- foldl_insertZero_values: every bucket of the startup store is zeroed. -/
theorem foldl_insertZero_values (cfg : List HealthCheck) (st : Store)
    (hst : ∀ kv ∈ st, kv.2 = rZero) :
    ∀ kv ∈ cfg.foldl (fun s hc => insertZero s hc.hostname) st, kv.2 = rZero := by
  induction cfg generalizing st with
  | nil => exact hst
  | cons hc rest ih => exact ih _ (insertZero_values st hc.hostname hst)

/-- initStore_values: every bucket created at startup holds zeroed counters. -/
theorem initStore_values (cfg : List HealthCheck) :
    ∀ kv ∈ initStore cfg, kv.2 = rZero :=
  foldl_insertZero_values cfg [] (by intro kv hkv; cases hkv)

/-- foldl_insertZero_fresh: when the hostnames are distinct and none is
already present, the startup loop appends one zeroed bucket per descriptor. -/
theorem foldl_insertZero_fresh (cfg : List HealthCheck) (st : Store)
    (hd : ∀ hc ∈ cfg, ∀ kv ∈ st, kv.1 ≠ hc.hostname)
    (hn : (cfg.map (fun hc => hc.hostname)).Nodup) :
    cfg.foldl (fun s hc => insertZero s hc.hostname) st
      = st ++ cfg.map (fun hc => (hc.hostname, rZero)) := by
  induction cfg generalizing st with
  | nil => simp
  | cons hc rest ih =>
    simp only [List.map_cons, List.nodup_cons] at hn
    have habs : (st.any fun kv => kv.1 == hc.hostname) = false := by
      rw [List.any_eq_false]
      intro kv hkv
      simpa using hd hc (by simp) kv hkv
    simp only [List.foldl_cons]
    rw [show insertZero st hc.hostname = st ++ [(hc.hostname, rZero)] by
      rw [insertZero, habs]; simp]
    rw [ih (st ++ [(hc.hostname, rZero)]) ?_ hn.2]
    · simp
    · intro hc2 hhc2 kv hkv
      rcases List.mem_append.mp hkv with h1 | h2
      · exact hd hc2 (by simp [hhc2]) kv h1
      · simp only [List.mem_singleton] at h2
        rw [h2]
        intro he
        apply hn.1
        rw [show hc.hostname = hc2.hostname from he]
        exact List.mem_map_of_mem (fun d => d.hostname) hhc2

/-- initStore_nodup: with pairwise distinct hostnames the startup store is
one zeroed bucket per descriptor, in order. -/
theorem initStore_nodup (cfg : List HealthCheck)
    (hn : (cfg.map (fun hc => hc.hostname)).Nodup) :
    initStore cfg = cfg.map (fun hc => (hc.hostname, rZero)) := by
  have := foldl_insertZero_fresh cfg [] (by intro hc _ kv hkv; cases hkv) hn
  simpa [initStore] using this

/-- runCycle_fresh: one cycle over a store of fresh zeroed buckets with
distinct hostnames bumps every bucket exactly once. -/
theorem runCycle_fresh (l : List (String × Bool)) (hn : (l.map Prod.fst).Nodup) :
    runCycle (l.map (fun hb => ((hb.1 : String), rZero))) l
      = l.map (fun hb => (hb.1, bump rZero hb.2)) := by
  induction l with
  | nil => rfl
  | cons u t ih =>
    simp only [List.map_cons, List.nodup_cons] at hn
    have hu : u.1 ∉ t.map Prod.fst := hn.1
    show runCycle (updateSite ((u.1, rZero) :: t.map _) u) t = _
    simp only [updateSite, List.map_cons, if_pos rfl]
    have habs : updateSite (t.map (fun hb => ((hb.1 : String), rZero))) u
        = t.map (fun hb => ((hb.1 : String), rZero)) := by
      apply updateSite_absent
      intro kv hkv
      obtain ⟨hb, hhb, rfl⟩ := List.mem_map.mp hkv
      intro he
      exact hu (he ▸ List.mem_map_of_mem Prod.fst hhb)
    simp only [updateSite] at habs
    rw [habs, runCycle_cons, foldl_keep _ _ ?hkeep]
    · rw [ih hn.2]
      simp
    case hkeep =>
      intro u2 hu2 he
      apply hu
      rw [show u.1 = u2.1 from he]
      exact List.mem_map_of_mem Prod.fst hu2

/-- getSite_map_hostname: lookup of the hostname of a listed descriptor in a
store assigning every descriptor the same counters. -/
theorem getSite_map_hostname (cfg : List HealthCheck) (v : Result) (hc : HealthCheck)
    (hmem : hc ∈ cfg) :
    getSite (cfg.map (fun d => ((d.hostname : String), v))) hc.hostname = some v := by
  induction cfg with
  | nil => cases hmem
  | cons d rest ih =>
    simp only [List.map_cons, getSite]
    by_cases h : d.hostname = hc.hostname
    · rw [if_pos h]
    · rw [if_neg h]
      rcases List.mem_cons.mp hmem with rfl | hmem2
      · exact absurd rfl h
      · exact ih hmem2

/-- resultLE_refl: the componentwise counter order is reflexive. -/
theorem resultLE_refl (r : Result) : resultLE r r := ⟨le_refl _, le_refl _⟩

/-- resultLE_trans: the componentwise counter order is transitive. -/
theorem resultLE_trans {a b c : Result} (h1 : resultLE a b) (h2 : resultLE b c) :
    resultLE a c :=
  ⟨h1.1.trans h2.1, h1.2.trans h2.2⟩

/-- storeLE_trans: the store order is transitive. -/
theorem storeLE_trans {a b c : Store} (h1 : storeLE a b) (h2 : storeLE b c) :
    storeLE a c := by
  induction h1 generalizing c with
  | nil => cases h2; exact .nil
  | cons hh ht ih =>
    cases h2 with
    | cons hh2 ht2 =>
      exact .cons ⟨hh.1.trans hh2.1, resultLE_trans hh.2 hh2.2⟩ (ih ht2)

/-- storeLE_updateSite: one locked update only grows counters. -/
theorem storeLE_updateSite (st : Store) (hb : String × Bool) :
    storeLE st (updateSite st hb) := by
  rw [storeLE, updateSite, List.forall₂_map_right_iff]
  rw [List.forall₂_same]
  intro kv _
  refine ⟨rfl, ?_⟩
  dsimp only
  split
  · exact ⟨by simp [bump], by
      simp only [bump]
      exact le_add_of_nonneg_right (by split <;> norm_num)⟩
  · exact resultLE_refl _

/-- storeLE_runCycle: a whole cycle only grows counters. -/
theorem storeLE_runCycle (st : Store) (l : List (String × Bool)) :
    storeLE st (runCycle st l) := by
  induction l generalizing st with
  | nil => exact List.forall₂_same.mpr fun kv _ => ⟨rfl, resultLE_refl _⟩
  | cons u t ih =>
    exact storeLE_trans (storeLE_updateSite st u) (ih (updateSite st u))

/-- storeLE_runCycles: any number of cycles only grows counters. -/
theorem storeLE_runCycles (st : Store) (cycles : List (List (String × Bool))) :
    storeLE st (runCycles st cycles) := by
  induction cycles generalizing st with
  | nil => exact List.forall₂_same.mpr fun kv _ => ⟨rfl, resultLE_refl _⟩
  | cons c rest ih =>
    exact storeLE_trans (storeLE_runCycle st c) (ih (runCycle st c))

/-- runCycles_keys: no bucket is ever added or deleted across cycles. -/
theorem runCycles_keys (st : Store) (cycles : List (List (String × Bool))) :
    (runCycles st cycles).map Prod.fst = st.map Prod.fst := by
  induction cycles generalizing st with
  | nil => rfl
  | cons c rest ih =>
    show (runCycles (runCycle st c) rest).map Prod.fst = _
    rw [ih, runCycle_keys]

/-- inv_bump: a locked update preserves 0 ≤ successes ≤ attempts. -/
theorem inv_bump (r : Result) (b : Bool)
    (h : 0 ≤ r.Success ∧ r.Success ≤ r.Attempt) :
    0 ≤ (bump r b).Success ∧ (bump r b).Success ≤ (bump r b).Attempt := by
  simp only [bump]
  constructor
  · have : (0 : Rat) ≤ if b then 1 else 0 := by split <;> norm_num
    linarith [h.1]
  · have : (if b then (1 : Rat) else 0) ≤ 1 := by split <;> norm_num
    linarith [h.2]

/-- inv_updateSite: one update preserves the bucket invariant everywhere. -/
theorem inv_updateSite (st : Store) (hb : String × Bool)
    (h : ∀ kv ∈ st, 0 ≤ kv.2.Success ∧ kv.2.Success ≤ kv.2.Attempt) :
    ∀ kv ∈ updateSite st hb, 0 ≤ kv.2.Success ∧ kv.2.Success ≤ kv.2.Attempt := by
  intro kv hkv
  rw [updateSite] at hkv
  obtain ⟨kv0, hkv0, rfl⟩ := List.mem_map.mp hkv
  dsimp only
  split
  · exact inv_bump kv0.2 hb.2 (h kv0 hkv0)
  · exact h kv0 hkv0

/-- inv_runCycle: a cycle preserves the bucket invariant. -/
theorem inv_runCycle (st : Store) (l : List (String × Bool))
    (h : ∀ kv ∈ st, 0 ≤ kv.2.Success ∧ kv.2.Success ≤ kv.2.Attempt) :
    ∀ kv ∈ runCycle st l, 0 ≤ kv.2.Success ∧ kv.2.Success ≤ kv.2.Attempt := by
  induction l generalizing st with
  | nil => exact h
  | cons u t ih => exact ih (updateSite st u) (inv_updateSite st u h)

/-- inv_runCycles: any number of cycles preserves the bucket invariant. -/
theorem inv_runCycles (st : Store) (cycles : List (List (String × Bool)))
    (h : ∀ kv ∈ st, 0 ≤ kv.2.Success ∧ kv.2.Success ≤ kv.2.Attempt) :
    ∀ kv ∈ runCycles st cycles, 0 ≤ kv.2.Success ∧ kv.2.Success ≤ kv.2.Attempt := by
  induction cycles generalizing st with
  | nil => exact h
  | cons c rest ih => exact ih (runCycle st c) (inv_runCycle st c h)

/-- C3: buckets start at zero; after any number of cycles every bucket keeps
0 ≤ successes ≤ attempts; counters are monotonically non-decreasing across
cycles; buckets are never added or deleted; and one update for a descriptor
increments its attempts by exactly 1 and its successes by at most 1. -/
theorem claim_C3_counter_invariants (cfg : List HealthCheck)
    (cycles : List (List (String × Bool)))
    (kv kv2 : String × Result) (st : Store) (hb : String × Bool) (r : Result)
    (hkv : kv ∈ initStore cfg)
    (hkv2 : kv2 ∈ runCycles (initStore cfg) cycles)
    (hr : getSite st hb.1 = some r) :
    kv.2 = rZero ∧
    (0 ≤ kv2.2.Success ∧ kv2.2.Success ≤ kv2.2.Attempt) ∧
    storeLE (initStore cfg) (runCycles (initStore cfg) cycles) ∧
    (runCycles (initStore cfg) cycles).map Prod.fst = (initStore cfg).map Prod.fst ∧
    getSite (updateSite st hb) hb.1 = some (bump r hb.2) ∧
    (bump r hb.2).Attempt = r.Attempt + 1 ∧
    r.Success ≤ (bump r hb.2).Success ∧ (bump r hb.2).Success ≤ r.Success + 1 := by
  refine ⟨initStore_values cfg kv hkv, ?_, storeLE_runCycles _ _,
    runCycles_keys _ _, ?_, rfl, ?_, ?_⟩
  · refine inv_runCycles _ _ ?_ kv2 hkv2
    intro kv3 hkv3
    rw [initStore_values cfg kv3 hkv3]
    exact ⟨le_refl 0, le_refl 0⟩
  · rw [getSite_updateSite, if_pos rfl, hr, Option.map_some']
  · simp only [bump]
    exact le_add_of_nonneg_right (by split <;> norm_num)
  · simp only [bump]
    apply add_le_add_left
    split <;> norm_num

/-- C3 witness: the invariants at a concrete one-descriptor configuration,
one cycle, and one concrete locked update. -/
theorem claim_C3_counter_invariants_witness :
    (("h", rZero) : String × Result).2 = rZero ∧
    (0 ≤ (("h", bump rZero true) : String × Result).2.Success ∧
      (("h", bump rZero true) : String × Result).2.Success
        ≤ (("h", bump rZero true) : String × Result).2.Attempt) ∧
    storeLE (initStore [siteCrash]) (runCycles (initStore [siteCrash]) [[("x.example.com", true)]]) ∧
    (runCycles (initStore [siteCrash]) [[("x.example.com", true)]]).map Prod.fst
      = (initStore [siteCrash]).map Prod.fst ∧
    getSite (updateSite [("h", rZero)] ("h", true)) ("h", true).1
      = some (bump rZero ("h", true).2) ∧
    (bump rZero ("h", true).2).Attempt = rZero.Attempt + 1 ∧
    rZero.Success ≤ (bump rZero ("h", true).2).Success ∧
    (bump rZero ("h", true).2).Success ≤ rZero.Success + 1 := by
  have hkv : (("h", rZero) : String × Result) ∈ initStore [siteCrash] → True := fun _ => trivial
  exact claim_C3_counter_invariants [siteCrash] [[("x.example.com", true)]]
    ("x.example.com", rZero) ("x.example.com", bump rZero true)
    [("h", rZero)] ("h", true) rZero
    (by simp [initStore, insertZero, siteCrash])
    (by simp [runCycles, runCycle, updateSite, initStore, insertZero, siteCrash])
    (by simp [getSite])

/-- C4: two descriptors with the same hostname aggregate in one bucket: after
one cycle in which one succeeds and one fails (whatever order the two
goroutines acquired the lock in), the shared bucket holds attempts 2 and
successes 1 and its reported uptime is 50. -/
theorem claim_C4_shared_bucket (d1 d2 : HealthCheck) (h : String)
    (order : List (String × Bool))
    (h1 : d1.hostname = h) (h2 : d2.hostname = h)
    (hp : order.Perm [(d1.hostname, true), (d2.hostname, false)]) :
    getSite (runCycle (initStore [d1, d2]) order) h
      = some { Attempt := 2, Success := 1 } ∧
    Result.Uptime { Attempt := 2, Success := 1 } = 50 := by
  constructor
  · rw [runCycle_perm _ hp, h1, h2]
    have hinit : initStore [d1, d2] = [(h, rZero)] := by
      simp [initStore, insertZero, h1, h2]
    rw [hinit]
    show getSite (updateSite (updateSite [(h, rZero)] (h, true)) (h, false)) h = _
    norm_num [updateSite, getSite, bump, rZero]
  · rw [Result.Uptime, if_neg (by norm_num), mathRound, if_pos (by norm_num)]
    rw [show (100 : Rat) * (1 / 2) + 1 / 2 = ((101 : Nat) : Rat) / ((2 : Nat) : Rat) by
      norm_num]
    rw [Rat.floor_natCast_div_natCast]
    decide

/-- C4 witness: the shared-bucket aggregation at two concrete descriptors
probed in the reversed lock order. -/
theorem claim_C4_shared_bucket_witness :
    getSite (runCycle (initStore [siteA, siteB])
        [("a.example.com", false), ("a.example.com", true)]) "a.example.com"
      = some { Attempt := 2, Success := 1 } ∧
    Result.Uptime { Attempt := 2, Success := 1 } = 50 :=
  claim_C4_shared_bucket siteA siteB "a.example.com"
    [("a.example.com", false), ("a.example.com", true)] rfl rfl
    (by decide)

/-- C5: one cycle over descriptors with pairwise distinct hostnames, all
probes succeeding, yields exactly one bucket per descriptor (no update lost,
whatever order the goroutines acquired the lock in), each with attempts 1,
successes 1 and reported uptime 100. -/
theorem claim_C5_no_lost_updates (cfg : List HealthCheck) (order : List (String × Bool))
    (hc : HealthCheck)
    (hn : (cfg.map (fun d => d.hostname)).Nodup)
    (hp : order.Perm (cycleOutcomes cfg (fun _ => true)))
    (hmem : hc ∈ cfg) :
    (runCycle (initStore cfg) order).map Prod.fst = cfg.map (fun d => d.hostname) ∧
    (runCycle (initStore cfg) order).length = cfg.length ∧
    getSite (runCycle (initStore cfg) order) hc.hostname
      = some { Attempt := 1, Success := 1 } ∧
    Result.Uptime { Attempt := 1, Success := 1 } = 100 := by
  have hbump : bump rZero true = { Attempt := 1, Success := 1 } := by
    norm_num [bump, rZero]
  have hrun : runCycle (initStore cfg) order
      = cfg.map (fun d => ((d.hostname : String), bump rZero true)) := by
    rw [runCycle_perm _ hp, initStore_nodup cfg hn]
    have hmap : cfg.map (fun d => ((d.hostname : String), rZero))
        = (cycleOutcomes cfg (fun _ => true)).map (fun hb => ((hb.1 : String), rZero)) := by
      simp [cycleOutcomes, List.map_map, Function.comp]
    rw [hmap, runCycle_fresh _ (by
      simpa [cycleOutcomes, List.map_map, Function.comp] using hn)]
    simp [cycleOutcomes, List.map_map, Function.comp]
  refine ⟨?_, ?_, ?_, ?_⟩
  · rw [hrun, List.map_map]
    rfl
  · rw [hrun, List.length_map]
  · rw [hrun, getSite_map_hostname cfg _ hc hmem, hbump]
  · rw [Result.Uptime, if_neg (by norm_num), mathRound, if_pos (by norm_num)]
    rw [show (100 : Rat) * (1 / 1) + 1 / 2 = ((201 : Nat) : Rat) / ((2 : Nat) : Rat) by
      norm_num]
    rw [Rat.floor_natCast_div_natCast]
    decide

/-- C5 witness: two concrete descriptors with distinct hostnames, both
succeeding, probed in the reversed lock order. -/
theorem claim_C5_no_lost_updates_witness :
    (runCycle (initStore [siteA, siteC])
        [("c.example.com", true), ("a.example.com", true)]).map Prod.fst
      = [siteA, siteC].map (fun d => d.hostname) ∧
    (runCycle (initStore [siteA, siteC])
        [("c.example.com", true), ("a.example.com", true)]).length
      = [siteA, siteC].length ∧
    getSite (runCycle (initStore [siteA, siteC])
        [("c.example.com", true), ("a.example.com", true)]) siteA.hostname
      = some { Attempt := 1, Success := 1 } ∧
    Result.Uptime { Attempt := 1, Success := 1 } = 100 :=
  claim_C5_no_lost_updates [siteA, siteC]
    [("c.example.com", true), ("a.example.com", true)] siteA
    (by decide) (by decide) (by decide)

/-- C2 witness: the uptime formula at successes 1 and attempts 2. -/
theorem claim_C2_uptime_formula_witness :
    ((1 : Nat) ≤ 2) ∧
    (Result.Uptime { Attempt := 0, Success := ((1 : Nat) : Rat) } = 0 ∧
     (0 < (2 : Nat) → Result.Uptime { Attempt := ((2 : Nat) : Rat), Success := ((1 : Nat) : Rat) }
         = round (100 * ((1 : Nat) : Rat) / ((2 : Nat) : Rat))) ∧
     (0 < (2 : Nat) → (1 : Nat) = 2 →
       Result.Uptime { Attempt := ((2 : Nat) : Rat), Success := ((1 : Nat) : Rat) } = 100) ∧
     (0 ≤ Result.Uptime { Attempt := ((2 : Nat) : Rat), Success := ((1 : Nat) : Rat) } ∧
      Result.Uptime { Attempt := ((2 : Nat) : Rat), Success := ((1 : Nat) : Rat) } ≤ 100)) :=
  ⟨by norm_num, claim_C2_uptime_formula 1 2 (by norm_num)⟩

/-- setupAuxFails_iff: the startup loop fails exactly when some remaining
entry has an empty name, an empty url, or a url that url.Parse rejects. -/
theorem setupAuxFails_iff (parse : ParseEnv) (cfg : List HealthCheck) :
    ∀ acc st, setupAuxFails parse cfg acc st = true ↔
      ∃ hc ∈ cfg, hc.Name = "" ∨ hc.URL = "" ∨ parse hc.URL = none := by
  induction cfg with
  | nil => intro acc st; simp [setupAuxFails, setupAux]
  | cons hc rest ih =>
    intro acc st
    by_cases hname : hc.Name = ""
    · constructor
      · intro _
        exact ⟨hc, by simp, Or.inl hname⟩
      · intro _
        simp [setupAuxFails, setupAux, hname]
    · by_cases hurl : hc.URL = ""
      · constructor
        · intro _
          exact ⟨hc, by simp, Or.inr (Or.inl hurl)⟩
        · intro _
          simp [setupAuxFails, setupAux, hname, hurl]
      · cases hparse : parse hc.URL with
        | none =>
          constructor
          · intro _
            exact ⟨hc, by simp, Or.inr (Or.inr hparse)⟩
          · intro _
            simp [setupAuxFails, setupAux, hname, hurl, hparse]
        | some addr =>
          have hstep : setupAuxFails parse (hc :: rest) acc st
              = setupAuxFails parse rest (acc ++ [{ hc with hostname := addr.hostname }])
                  (insertZero st addr.hostname) := by
            simp [setupAuxFails, setupAux, hname, hurl, hparse]
          rw [hstep, ih]
          constructor
          · rintro ⟨hc2, hmem2, hor⟩
            exact ⟨hc2, by simp [hmem2], hor⟩
          · rintro ⟨hc2, hmem2, hor⟩
            rcases List.mem_cons.mp hmem2 with rfl | hmem3
            · rcases hor with h | h | h
              · exact absurd h hname
              · exact absurd h hurl
              · rw [hparse] at h
                cases h
            · exact ⟨hc2, hmem3, hor⟩

/-- C6 counterexample: a descriptor with non-empty name and url whose url is
the relative reference /path passes startup validation even though no
hostname is extractable from it: Go url.Parse accepts /path with an empty
Host (parseRelative models exactly that), so setup succeeds, refuting the
claim that validation fails whenever no hostname is extractable. -/
theorem claim_C6_counterexample :
    siteRelative.Name ≠ "" ∧ siteRelative.URL ≠ "" ∧
    parseRelative siteRelative.URL = some { hostname := "" } ∧
    setupFails parseRelative [siteRelative] = false := by
  refine ⟨by decide, by decide, by decide, by decide⟩

/-- C6 amended: startup fails with a configuration error exactly when some
descriptor has an empty name, an empty url, or a url that url.Parse rejects;
a url that parses successfully is accepted even when its hostname is the
empty string (no hostname extractable), and the process then starts,
aggregating such a descriptor under the empty hostname. -/
theorem claim_C6_validation (parse : ParseEnv) (cfg : List HealthCheck) :
    setupFails parse cfg = true ↔
      ∃ hc ∈ cfg, hc.Name = "" ∨ hc.URL = "" ∨ parse hc.URL = none :=
  setupAuxFails_iff parse cfg [] []

/-- C7: a config entry with missing name or url terminates the process with
exit code -1 (non-zero) during startup, which precedes every cycle and makes
no network call; conversely a probe whose network call fails merely returns
false, and a cycle over arbitrary outcomes always completes with every bucket
still present. -/
theorem claim_C7_fatal_config_nonfatal_probe (parse : ParseEnv)
    (cfg : List HealthCheck) (env : HttpEnv) (site : HealthCheck)
    (st : Store) (l : List (String × Bool))
    (hbad : ∃ hc ∈ cfg, hc.Name = "" ∨ hc.URL = "")
    (herr : env.net (builtRequest site) = .err) :
    (mainStart parse cfg = .exits (-1) ∧ ((-1 : Int) ≠ 0)) ∧
    check env site = false ∧
    (runCycle st l).map Prod.fst = st.map Prod.fst := by
  refine ⟨⟨?_, by norm_num⟩, ?_, runCycle_keys st l⟩
  · have hfail : setupFails parse cfg = true := by
      rw [show setupFails parse cfg = setupAuxFails parse cfg [] [] from rfl,
        setupAuxFails_iff]
      obtain ⟨hc, hmem, hor⟩ := hbad
      exact ⟨hc, hmem, hor.elim Or.inl (fun h2 => Or.inr (Or.inl h2))⟩
    cases hsetup : setup parse cfg with
    | error e => simp [mainStart, hsetup]
    | ok v => simp [setupFails, hsetup] at hfail
  · simp [check, clientDo, herr]

/-- C7 witness: the fatal versus non-fatal split at a concrete config with a
missing name and a concrete always-erroring network. -/
theorem claim_C7_fatal_config_nonfatal_probe_witness :
    (mainStart parseNone [siteNoName] = .exits (-1) ∧ ((-1 : Int) ≠ 0)) ∧
    check envNetErr siteA = false ∧
    (runCycle [(("a.example.com" : String), rZero)]
        [("a.example.com", true)]).map Prod.fst
      = [(("a.example.com" : String), rZero)].map Prod.fst :=
  claim_C7_fatal_config_nonfatal_probe parseNone [siteNoName] envNetErr siteA
    [("a.example.com", rZero)] [("a.example.com", true)]
    ⟨siteNoName, by simp, Or.inl rfl⟩ rfl

/-- toResult_seqBump: the counter conversion commutes with one update. -/
theorem toResult_seqBump (c : SeqCounters) (b : Bool) :
    toResult (seqBump c b) = bump (toResult c) b := by
  simp only [toResult, seqBump, bump, Result.mk.injEq]
  constructor
  · push_cast
    ring
  · cases b <;> push_cast <;> norm_num

/-- toStore_seqUpdate: the store conversion commutes with one update. -/
theorem toStore_seqUpdate (st : SeqStore) (hb : String × Bool) :
    toStore (seqUpdate st hb) = updateSite (toStore st) hb := by
  simp only [toStore, seqUpdate, updateSite, List.map_map]
  apply List.map_congr_left
  intro kv _
  dsimp only [Function.comp]
  by_cases h : kv.1 = hb.1
  · rw [if_pos h, if_pos h, toResult_seqBump]
  · rw [if_neg h, if_neg h]

/-- toStore_any: the store conversion preserves key membership tests. -/
theorem toStore_any (st : SeqStore) (h : String) :
    ((toStore st).any fun kv => kv.1 == h) = (st.any fun kv => kv.1 == h) := by
  induction st with
  | nil => rfl
  | cons kv rest ih =>
    simp only [toStore, List.map_cons, List.any_cons] at ih ⊢
    rw [ih]

/-- toStore_seqInsertZero: the store conversion commutes with a startup
insertion. -/
theorem toStore_seqInsertZero (st : SeqStore) (h : String) :
    toStore (seqInsertZero st h) = insertZero (toStore st) h := by
  rw [seqInsertZero, insertZero, toStore_any]
  by_cases hc : (st.any fun kv => kv.1 == h) = true
  · rw [if_pos hc, if_pos hc]
    simp only [toStore, List.map_map]
    apply List.map_congr_left
    intro kv _
    dsimp only [Function.comp]
    by_cases hk : kv.1 = h
    · rw [if_pos hk, if_pos hk]
      simp [toResult, rZero]
    · rw [if_neg hk, if_neg hk]
  · rw [if_neg hc, if_neg hc]
    simp [toStore, toResult, rZero]

/-- toStore_seqInitStore: both variants build the same startup store. -/
theorem toStore_seqInitStore (cfg : List HealthCheck) :
    toStore (seqInitStore cfg) = initStore cfg := by
  suffices hgen : ∀ st, toStore (cfg.foldl (fun s hc => seqInsertZero s hc.hostname) st)
      = cfg.foldl (fun s hc => insertZero s hc.hostname) (toStore st) by
    simpa [seqInitStore, initStore] using hgen []
  induction cfg with
  | nil => intro st; rfl
  | cons hc rest ih =>
    intro st
    simp only [List.foldl_cons]
    rw [ih, toStore_seqInsertZero]

/-- toStore_seqRunCycle: the store conversion commutes with a whole cycle. -/
theorem toStore_seqRunCycle (st : SeqStore) (l : List (String × Bool)) :
    toStore (seqRunCycle st l) = runCycle (toStore st) l := by
  induction l generalizing st with
  | nil => rfl
  | cons u t ih =>
    show toStore (seqRunCycle (seqUpdate st u) t) = runCycle (updateSite (toStore st) u) t
    rw [ih, toStore_seqUpdate]

/-- C9: the sequential and concurrent variants are equivalent: startup builds
the same buckets, one cycle over the same per-descriptor outcomes leaves the
same counters whatever order the concurrent goroutines ran in, and any bucket
with at least one attempt reports the same uptime integer in both variants. -/
theorem claim_C9_variants_agree (cfg : List HealthCheck) (st : SeqStore)
    (updates order : List (String × Bool)) (c : SeqCounters)
    (hp : order.Perm updates) (hcount : 0 < c.count) :
    initStore cfg = toStore (seqInitStore cfg) ∧
    runCycle (toStore st) order = toStore (seqRunCycle st updates) ∧
    Result.Uptime (toResult c) = seqUptime c := by
  refine ⟨(toStore_seqInitStore cfg).symm, ?_, ?_⟩
  · rw [runCycle_perm _ hp, toStore_seqRunCycle]
  · have hne : ((c.count : Rat)) ≠ 0 :=
      Nat.cast_ne_zero.mpr hcount.ne'
    rw [Result.Uptime, if_neg (by simpa [toResult] using hne)]
    rfl

/-- C9 witness: the two variants at a concrete descriptor, store, update list
and bucket. -/
theorem claim_C9_variants_agree_witness :
    initStore [siteA] = toStore (seqInitStore [siteA]) ∧
    runCycle (toStore [("a.example.com", { count := 1, success := 1 })])
        [("a.example.com", true)]
      = toStore (seqRunCycle [("a.example.com", { count := 1, success := 1 })]
          [("a.example.com", true)]) ∧
    Result.Uptime (toResult { count := 2, success := 1 })
      = seqUptime { count := 2, success := 1 } :=
  claim_C9_variants_agree [siteA] [("a.example.com", { count := 1, success := 1 })]
    [("a.example.com", true)] [("a.example.com", true)]
    { count := 2, success := 1 } (List.Perm.refl _) (by norm_num)

end FetchSre
